import Mathlib

/-!
Verification development for the Cortex_Mentor pipeline engine.

This file gives a shallow embedding, in Lean 4, of the parts of the
repository that the specification talks about:

* `Pipeline._execute_parallel_step` / `Pipeline._execute_sequential_step` /
  `Pipeline.execute` (src/cortex/pipelines/pipelines.py);
* `GraphTraversalProcessor.process` / `GraphTraversalProcessor._traverse`
  (src/cortex/pipelines/graph_traversal.py);
* `KnowledgeGraphService._update_index_node` and
  `KnowledgeGraphService._generate_insight_filepath`
  (src/cortex/services/knowledge_graph_service.py);
* `CurationTriggerProcessor.process` (src/cortex/pipelines/synthesis.py);
* the `synthesis_task` worker (src/cortex/workers.py).

Python dictionaries are modelled as insertion-ordered association lists
with unique keys; Python exceptions are modelled by an error string; the
completion order of concurrently awaited tasks is modelled explicitly as
a permutation of the index-tagged task list, with `asyncio.gather`
reassembling results in task order.
-/

namespace Cortex

/-- A Python `dict` with `String` keys, modelled as an insertion-ordered
association list.  Lists built by `dictSet`/`dictUpdate` keep keys unique,
matching CPython dict semantics. -/
abbrev Dct (α : Type) : Type := List (String × α)

/-- `d[k]` lookup returning `none` when the key is absent. -/
def dictGet {α : Type} : Dct α → String → Option α
  | [], _ => none
  | (k0, v0) :: rest, k => if k0 == k then some v0 else dictGet rest k

/-- `d[k] = v`: overwrite in place when the key exists (keeping its
position, as CPython does), otherwise append at the end. -/
def dictSet {α : Type} : Dct α → String → α → Dct α
  | [], k, v => [(k, v)]
  | (k0, v0) :: rest, k, v =>
      if k0 == k then (k0, v) :: rest else (k0, v0) :: dictSet rest k v

/-- `d.update(r)`: fold `r`'s entries into `d` in order
(last writer wins on key collision). -/
def dictUpdate {α : Type} (d r : Dct α) : Dct α :=
  r.foldl (fun acc p => dictSet acc p.1 p.2) d

/-- The running `data` value flowing through a pipeline: either a Python
mapping or some non-mapping value. -/
inductive Data (α : Type) : Type
  | dict (d : Dct α)
  | other (v : α)
deriving DecidableEq

/-- The outcome of awaiting one processor inside
`asyncio.gather(*tasks, return_exceptions=True)`: an exception object, a
mapping result, or a non-mapping result. -/
inductive PRes (α : Type) : Type
  | exc (e : String)
  | dict (d : Dct α)
  | other (v : α)
deriving DecidableEq

/-- The result-merging loop of `Pipeline._execute_parallel_step`
(pipelines.py lines 38-53): walk `parallel_results` in list order; re-raise
the first exception encountered; merge a `dict` result into the running
`data` when `data` is a `dict`, else replace `data` by the `dict` result;
skip (with only a warning) any non-dict result. -/
def mergeParallel {α : Type} : Data α → List (PRes α) → Except String (Data α)
  | data, [] => Except.ok data
  | data, r :: rs =>
      match r with
      | PRes.exc e => Except.error e
      | PRes.dict d =>
          match data with
          | Data.dict d0 => mergeParallel (Data.dict (dictUpdate d0 d)) rs
          | Data.other _ => mergeParallel (Data.dict d) rs
      | PRes.other _ => mergeParallel data rs

/-- A completion schedule delivers the index-tagged task results in the
order the underlying awaits resolved; `asyncio.gather` places each result
back at its task's index, so its output is in task order.  `gatherOut n
sched` reads the result for each index `0..n-1` out of the schedule. -/
def gatherOut {α : Type} (n : Nat) (sched : List (Nat × PRes α)) : List (PRes α) :=
  (List.range n).filterMap (fun i => (sched.find? (fun p => p.1 == i)).map Prod.snd)

/-- `Pipeline._execute_parallel_step` (pipelines.py lines 29-53): all
tasks run to completion, `gather` reassembles their results in task
order from the completion schedule, and the merge loop folds them into
`data`. -/
def executeParallelStep {α : Type} (data : Data α) (tasks : List (PRes α))
    (sched : List (Nat × PRes α)) : Except String (Data α) :=
  mergeParallel data (gatherOut tasks.length sched)

theorem find?_sched_eq {α : Type} (tasks : List (PRes α)) (sched : List (Nat × PRes α))
    (h : sched.Perm tasks.enum) (i : Nat) (a : PRes α) (ha : tasks[i]? = some a) :
    sched.find? (fun p => p.1 == i) = some (i, a) := by
  have hmem : (i, a) ∈ sched := by
    rw [h.mem_iff, List.mk_mem_enum_iff_getElem?]
    exact ha
  have hsome : (sched.find? (fun p => p.1 == i)).isSome := by
    rw [List.find?_isSome]
    exact ⟨(i, a), hmem, by simp⟩
  obtain ⟨p, hp⟩ := Option.isSome_iff_exists.mp hsome
  have hpi : p.1 = i := by
    have := List.find?_some hp
    simpa using this
  have hpmem : p ∈ tasks.enum := h.mem_iff.mp (List.mem_of_find?_eq_some hp)
  have hpval : tasks[p.1]? = some p.2 := by
    rw [← List.mk_mem_enum_iff_getElem?]
    exact hpmem
  rw [hpi, ha] at hpval
  have : p = (i, a) := by
    cases p with
    | mk x y =>
      simp only at hpi
      cases hpval
      simp [hpi]
  rw [hp, this]

theorem filterMap_getElem? {α : Type} (l : List α) :
    (List.range l.length).filterMap (fun i => l[i]?) = l := by
  induction l with
  | nil => simp
  | cons x xs ih =>
      rw [List.length_cons, List.range_succ_eq_map, List.filterMap_cons,
        List.filterMap_map]
      simp only [List.getElem?_cons_zero]
      have : (fun i => (x :: xs)[i]?) ∘ Nat.succ = fun i => xs[i]? := by
        funext i
        simp
      rw [this, ih]

/-- `asyncio.gather` returns results in task order for every completion
schedule that is a permutation of the index-tagged tasks. -/
theorem gatherOut_eq {α : Type} (tasks : List (PRes α)) (sched : List (Nat × PRes α))
    (h : sched.Perm tasks.enum) : gatherOut tasks.length sched = tasks := by
  unfold gatherOut
  have hcong : ∀ i ∈ List.range tasks.length,
      ((sched.find? (fun p => p.1 == i)).map Prod.snd) = tasks[i]? := by
    intro i hi
    rw [List.mem_range] at hi
    have ha : tasks[i]? = some tasks[i] := List.getElem?_eq_getElem hi
    rw [find?_sched_eq tasks sched h i tasks[i] ha, ha]
    rfl
  rw [List.filterMap_congr hcong, filterMap_getElem?]

theorem dictGet_dictSet_self {α : Type} (d : Dct α) (k : String) (v : α) :
    dictGet (dictSet d k v) k = some v := by
  induction d with
  | nil => simp [dictSet, dictGet]
  | cons p rest ih =>
      by_cases h : p.1 = k
      · simp [dictSet, dictGet, h]
      · simp only [dictSet, dictGet]
        rw [if_neg (by simpa using h)]
        simp only [dictGet]
        rw [if_neg (by simpa using h)]
        exact ih

theorem dictGet_dictSet_ne {α : Type} (d : Dct α) (k' k : String) (v : α)
    (h : k' ≠ k) : dictGet (dictSet d k' v) k = dictGet d k := by
  induction d with
  | nil => simp [dictSet, dictGet, h]
  | cons p rest ih =>
      by_cases hp : p.1 = k'
      · simp only [dictSet]
        rw [if_pos (by simpa using hp)]
        simp only [dictGet]
        rw [if_neg (by simp [hp, h]), if_neg (by simp [hp, h])]
      · simp only [dictSet]
        rw [if_neg (by simpa using hp)]
        simp only [dictGet]
        by_cases hk : p.1 = k
        · rw [if_pos (by simpa using hk), if_pos (by simpa using hk)]
        · rw [if_neg (by simpa using hk), if_neg (by simpa using hk)]
          exact ih

theorem dictGet_dictUpdate_not_mem {α : Type} (r d : Dct α) (k : String)
    (h : ∀ p ∈ r, p.1 ≠ k) : dictGet (dictUpdate d r) k = dictGet d k := by
  induction r generalizing d with
  | nil => rfl
  | cons p rest ih =>
      have hstep : dictUpdate d (p :: rest) = dictUpdate (dictSet d p.1 p.2) rest := rfl
      rw [hstep, ih _ (fun q hq => h q (List.mem_cons_of_mem _ hq)),
        dictGet_dictSet_ne _ _ _ _ (h p (List.mem_cons_self _ _))]

theorem dictGet_dictUpdate_mem {α : Type} (r d : Dct α) (k : String) (v : α)
    (hnd : (r.map Prod.fst).Nodup) (hget : dictGet r k = some v) :
    dictGet (dictUpdate d r) k = some v := by
  induction r generalizing d with
  | nil => cases hget
  | cons p rest ih =>
      have hstep : dictUpdate d (p :: rest) = dictUpdate (dictSet d p.1 p.2) rest := rfl
      rw [List.map_cons, List.nodup_cons] at hnd
      by_cases hp : p.1 = k
      · have hv : v = p.2 := by
          simp only [dictGet] at hget
          rw [if_pos (by simpa using hp)] at hget
          exact (Option.some_inj.mp hget).symm
        rw [hstep, dictGet_dictUpdate_not_mem _ _ _
          (fun q hq => by
            intro hqk
            have : q.1 ∈ rest.map Prod.fst := List.mem_map_of_mem Prod.fst hq
            rw [hqk, ← hp] at this
            exact hnd.1 this)]
        rw [hp, dictGet_dictSet_self, hv]
      · simp only [dictGet] at hget
        rw [if_neg (by simpa using hp)] at hget
        rw [hstep]
        exact ih _ hnd.2 hget

theorem mergeParallel_all_dicts {α : Type} (ds : List (Dct α)) (d0 : Dct α) :
    mergeParallel (Data.dict d0) (ds.map PRes.dict)
      = Except.ok (Data.dict (ds.foldl dictUpdate d0)) := by
  induction ds generalizing d0 with
  | nil => rfl
  | cons d rest ih => simpa [mergeParallel] using ih (dictUpdate d0 d)

theorem mergeParallel_skips_other {α : Type} (xs : List (PRes α)) (data : Data α)
    (v : α) (ys : List (PRes α)) :
    mergeParallel data (xs ++ PRes.other v :: ys) = mergeParallel data (xs ++ ys) := by
  induction xs generalizing data with
  | nil => rfl
  | cons r rest ih =>
      cases r with
      | exc e => rfl
      | dict d =>
          cases data with
          | dict d0 => simpa [mergeParallel] using ih _
          | other w => simpa [mergeParallel] using ih _
      | other w => simpa [mergeParallel] using ih _

/-- C1: a parallel step on mapping data merges each processor's mapping
result into the running mapping in configured list order, independently of
the completion order of the awaits (modelled as any permutation `sched` of
the index-tagged tasks): (i) the step's outcome is the same for every
completion schedule; (ii) on mapping data with all-mapping results the
outcome is the input mapping folded with each result via `dict.update`;
(iii) for processors `[A, B]` both returning mappings with an overlapping
key, the merged value at that key is B's value, for every completion
schedule; (iv) a non-mapping result is not merged (dropping it leaves the
outcome unchanged); (v) non-mapping running data is replaced wholesale by
the first mapping result in list order. -/
theorem parallel_step_merge_semantics {α : Type} :
    (∀ (data : Data α) (tasks : List (PRes α)) (sched : List (Nat × PRes α)),
        sched.Perm tasks.enum →
        executeParallelStep data tasks sched = mergeParallel data tasks) ∧
    (∀ (d0 : Dct α) (ds : List (Dct α)),
        mergeParallel (Data.dict d0) (ds.map PRes.dict)
          = Except.ok (Data.dict (ds.foldl dictUpdate d0))) ∧
    (∀ (d0 dA dB : Dct α) (k : String) (vA vB : α) (sched : List (Nat × PRes α)),
        sched.Perm ([PRes.dict dA, PRes.dict dB] : List (PRes α)).enum →
        (dB.map Prod.fst).Nodup →
        dictGet dA k = some vA → dictGet dB k = some vB →
        ∃ m, executeParallelStep (Data.dict d0) [PRes.dict dA, PRes.dict dB] sched
              = Except.ok (Data.dict m) ∧ dictGet m k = some vB) ∧
    (∀ (data : Data α) (xs : List (PRes α)) (v : α) (ys : List (PRes α)),
        mergeParallel data (xs ++ PRes.other v :: ys)
          = mergeParallel data (xs ++ ys)) ∧
    (∀ (v : α) (dd : Dct α) (rs : List (PRes α)),
        mergeParallel (Data.other v) (PRes.dict dd :: rs)
          = mergeParallel (Data.dict dd) rs) := by
  refine ⟨?_, ?_, ?_, ?_, ?_⟩
  · intro data tasks sched h
    unfold executeParallelStep
    rw [gatherOut_eq tasks sched h]
  · intro d0 ds
    exact mergeParallel_all_dicts ds d0
  · intro d0 dA dB k vA vB sched hperm hnd hA hB
    refine ⟨dictUpdate (dictUpdate d0 dA) dB, ?_, ?_⟩
    · unfold executeParallelStep
      rw [gatherOut_eq _ sched hperm]
      exact mergeParallel_all_dicts [dA, dB] d0
    · exact dictGet_dictUpdate_mem dB _ k vB hnd hB
  · intro data xs v ys
    exact mergeParallel_skips_other xs data v ys
  · intro v dd rs
    rfl

/-- Witness for C1: concrete instances of parts (i) and (iii), with the
completion schedule of (iii) delivering B's result before A's. -/
theorem parallel_step_merge_semantics_witness :
    executeParallelStep (Data.dict [("x", "0")]) [PRes.other "t"] [(0, PRes.other "t")]
        = mergeParallel (Data.dict [("x", "0")]) [PRes.other "t"] ∧
    (∃ m, executeParallelStep (Data.dict [("k", "d")])
            [PRes.dict [("k", "a")], PRes.dict [("k", "b")]]
            [(1, PRes.dict [("k", "b")]), (0, PRes.dict [("k", "a")])]
          = Except.ok (Data.dict m) ∧ dictGet m "k" = some "b") :=
  ⟨parallel_step_merge_semantics.1 _ _ _ (by decide),
   parallel_step_merge_semantics.2.2.1 _ [("k", "a")] [("k", "b")] "k" "a" "b" _
     (by decide) (by decide) (by decide) (by decide)⟩

/-- A processor, as consumed by `Pipeline`: a name (the class name used in
the log lines) and an async `process(data, context)` body, which either
returns a value or raises.  Each invocation of `run` is one call to
`process`, i.e. one performance of the processor's observable work. -/
structure Proc (α : Type) : Type where
  name : String
  run : Data α → PRes α

/-- One entry of the `processors` list handed to `Pipeline.__init__`: a
single processor (sequential step) or a list of processors (parallel
step). -/
inductive Step (α : Type) : Type
  | seq (p : Proc α)
  | par (ps : List (Proc α))

/-- Conversion of a non-exception processor result into the running
`data` (`data = await processor.process(...)`).  The `exc` case is never
reached by `execute`, which re-raises exceptions instead. -/
def resData {α : Type} : PRes α → Data α
  | PRes.dict d => Data.dict d
  | PRes.other v => Data.other v
  | PRes.exc _ => Data.dict []

def isExc {α : Type} : PRes α → Bool
  | PRes.exc _ => true
  | _ => false

/-- `Pipeline.execute` (pipelines.py lines 55-72) with an invocation
trace: the second component lists, in order, the names of the processors
whose `process` was invoked.  A sequential step raises immediately on
failure (`_execute_sequential_step`, lines 17-27).  A parallel step first
starts every processor and awaits them all via
`asyncio.gather(*tasks, return_exceptions=True)` — so every sibling runs
to completion exactly once and appears in the trace — and only then scans
the results in list order, re-raising the first exception
(`_execute_parallel_step`, lines 29-53; the gather reassembly is the
`gatherOut`/`executeParallelStep` model proved schedule-independent
above). -/
def execute {α : Type} : List (Step α) → Data α → Except String (Data α) × List String
  | [], d => (Except.ok d, [])
  | Step.seq p :: rest, d =>
      match p.run d with
      | PRes.exc e => (Except.error e, [p.name])
      | PRes.dict dd =>
          let r := execute rest (Data.dict dd)
          (r.1, p.name :: r.2)
      | PRes.other v =>
          let r := execute rest (Data.other v)
          (r.1, p.name :: r.2)
  | Step.par ps :: rest, d =>
      let results := ps.map (fun p => p.run d)
      let names := ps.map (fun p => p.name)
      match mergeParallel d results with
      | Except.error e => (Except.error e, names)
      | Except.ok d2 =>
          let r := execute rest d2
          (r.1, names ++ r.2)

/-- C2: for a sequential pipeline `[P1, P2, P3]` where `P2.process`
raises `e` on the data produced by `P1`, the pipeline invokes exactly
`P1` then `P2`, never invokes `P3.process`, and propagates exactly `e`. -/
theorem sequential_fail_fast {α : Type} (P1 P2 P3 : Proc α) (d0 : Data α) (e : String)
    (h1 : isExc (P1.run d0) = false)
    (h2 : P2.run (resData (P1.run d0)) = PRes.exc e)
    (h31 : P3.name ≠ P1.name) (h32 : P3.name ≠ P2.name) :
    execute [Step.seq P1, Step.seq P2, Step.seq P3] d0
        = (Except.error e, [P1.name, P2.name]) ∧
    P3.name ∉ (execute [Step.seq P1, Step.seq P2, Step.seq P3] d0).2 := by
  have hmain : execute [Step.seq P1, Step.seq P2, Step.seq P3] d0
      = (Except.error e, [P1.name, P2.name]) := by
    cases hr : P1.run d0 with
    | exc e1 => rw [hr] at h1; cases h1
    | dict dd =>
        rw [hr] at h2
        simp only [execute, hr, resData] at h2 ⊢
        rw [h2]
    | other v =>
        rw [hr] at h2
        simp only [execute, hr, resData] at h2 ⊢
        rw [h2]
  refine ⟨hmain, ?_⟩
  rw [hmain]
  simp [h31, h32]

/-- Witness for C2: a concrete three-step sequential pipeline whose
second processor raises. -/
theorem sequential_fail_fast_witness :
    execute [Step.seq ⟨"P1", fun _ => PRes.other "a"⟩,
             Step.seq ⟨"P2", fun _ => PRes.exc "boom"⟩,
             Step.seq ⟨"P3", fun _ => PRes.other "c"⟩] (Data.other ("in" : String))
        = (Except.error "boom", ["P1", "P2"]) ∧
    "P3" ∉ (execute [Step.seq ⟨"P1", fun _ => PRes.other "a"⟩,
             Step.seq ⟨"P2", fun _ => PRes.exc "boom"⟩,
             Step.seq ⟨"P3", fun _ => PRes.other "c"⟩] (Data.other ("in" : String))).2 :=
  sequential_fail_fast _ _ _ _ _ (by decide) (by decide) (by decide) (by decide)

/-- C3: for a pipeline whose first step is the parallel step
`[Success, Failing]` followed by a later step `P3`: the failing sibling's
error propagates and aborts the pipeline (`P3` is never invoked), yet the
succeeding sibling was invoked exactly once — its work ran to completion
before the step re-raised, and nothing cancels or rolls it back. -/
theorem parallel_non_cancellation {α : Type} (S F P3 : Proc α) (d0 : Data α) (e : String)
    (hS : isExc (S.run d0) = false)
    (hF : F.run d0 = PRes.exc e)
    (hSF : S.name ≠ F.name)
    (h3S : P3.name ≠ S.name) (h3F : P3.name ≠ F.name) :
    execute [Step.par [S, F], Step.seq P3] d0 = (Except.error e, [S.name, F.name]) ∧
    (execute [Step.par [S, F], Step.seq P3] d0).2.count S.name = 1 ∧
    P3.name ∉ (execute [Step.par [S, F], Step.seq P3] d0).2 := by
  have hmain : execute [Step.par [S, F], Step.seq P3] d0
      = (Except.error e, [S.name, F.name]) := by
    cases hr : S.run d0 with
    | exc e1 => rw [hr] at hS; cases hS
    | dict dd =>
        cases d0 with
        | dict d00 => simp [execute, hr, hF, mergeParallel]
        | other v => simp [execute, hr, hF, mergeParallel]
    | other v =>
        cases d0 with
        | dict d00 => simp [execute, hr, hF, mergeParallel]
        | other w => simp [execute, hr, hF, mergeParallel]
  refine ⟨hmain, ?_, ?_⟩
  · rw [hmain]
    simp [List.count_cons, hSF.symm]
  · rw [hmain]
    simp [h3S, h3F]

/-- Witness for C3: a concrete `[Success, Failing]` parallel step followed
by a sequential step. -/
theorem parallel_non_cancellation_witness :
    execute [Step.par [⟨"Success", fun _ => PRes.dict [("ok", "1")]⟩,
                       ⟨"Failing", fun _ => PRes.exc "bang"⟩],
             Step.seq ⟨"P3", fun _ => PRes.other "z"⟩] (Data.dict [])
        = (Except.error "bang", ["Success", "Failing"]) ∧
    (execute [Step.par [⟨"Success", fun _ => PRes.dict [("ok", "1")]⟩,
                       ⟨"Failing", fun _ => PRes.exc "bang"⟩],
             Step.seq ⟨"P3", fun _ => PRes.other "z"⟩] (Data.dict ([] : Dct String))).2.count "Success" = 1 ∧
    "P3" ∉ (execute [Step.par [⟨"Success", fun _ => PRes.dict [("ok", "1")]⟩,
                       ⟨"Failing", fun _ => PRes.exc "bang"⟩],
             Step.seq ⟨"P3", fun _ => PRes.other "z"⟩] (Data.dict ([] : Dct String))).2 :=
  parallel_non_cancellation _ _ _ _ _ (by decide) (by decide) (by decide) (by decide) (by decide)

/-- The Python values appearing in the synthesis pipeline's data mapping
that the curation trigger inspects: booleans and strings. -/
inductive PyV : Type
  | vbool (b : Bool)
  | vstr (s : String)
deriving DecidableEq

/-- Python truthiness for `PyV`. -/
def pyTruthy : PyV → Bool
  | PyV.vbool b => b
  | PyV.vstr s => !(s == "")

/-- `CurationTriggerProcessor.process` (synthesis.py lines 160-168):
`needs_improvement = data.get("needs_improvement", False)`; when truthy,
build a `CurationProcessor` and `await curation_processor.process(data,
context)` — with no `try`/`except` anywhere around the call, so whatever
the curation sub-pipeline raises propagates out of this processor;
otherwise return `data` unchanged.  The curation sub-pipeline's behaviour
is the parameter `curationRun` (its own `process`, curation.py lines
101-124, also has no exception handler).  On non-mapping data,
`data.get` itself raises `AttributeError`. -/
def curationTriggerRun (curationRun : Data PyV → PRes PyV) : Data PyV → PRes PyV
  | Data.dict dd =>
      let needs := (dictGet dd "needs_improvement").getD (PyV.vbool false)
      if pyTruthy needs then curationRun (Data.dict dd) else PRes.dict dd
  | Data.other _ => PRes.exc "AttributeError"

def curationTriggerProc (curationRun : Data PyV → PRes PyV) : Proc PyV :=
  ⟨"CurationTriggerProcessor", curationTriggerRun curationRun⟩

/-- A curation sub-pipeline run that fails. -/
def failingCuration : Data PyV → PRes PyV := fun _ => PRes.exc "CurationError"

/-- The data reaching the curation trigger after the gateway decided
`needs_improvement = True`. -/
def dataAfterGateway : Data PyV :=
  Data.dict [("query_text", PyV.vstr "how to auth"),
             ("needs_improvement", PyV.vbool true)]

/-- A stand-in for the remainder of the synthesis pipeline (the step
that would synthesize the final insight). -/
def synthRemainder : Proc PyV := ⟨"InsightSynthesizer", fun d =>
  match d with
  | Data.dict dd => PRes.dict dd
  | Data.other v => PRes.other v⟩

/-- Counterexample to C9: with the gateway having set
`needs_improvement = True` and the curation sub-pipeline failing, the
pipeline containing the curation trigger aborts with the curation error
and the following synthesis step is never invoked — the failure is not
swallowed inside the trigger and the synthesis does not proceed. -/
theorem curation_failure_not_contained :
    execute [Step.seq (curationTriggerProc failingCuration), Step.seq synthRemainder]
        dataAfterGateway
      = (Except.error "CurationError", ["CurationTriggerProcessor"]) := by
  rfl

/-- C9 (amended): a failure of the curation sub-pipeline after
`needs_improvement = true` propagates out of `CurationTriggerProcessor`
(which has no handler) and aborts the synthesis pipeline: the trigger is
the last processor invoked (exactly once — so no retry), every later
step is skipped, and the pipeline's outcome is the curation error
itself. -/
theorem curation_failure_aborts_synthesis (curationRun : Data PyV → PRes PyV)
    (dd : Dct PyV) (next : Proc PyV) (e : String)
    (hneeds : pyTruthy ((dictGet dd "needs_improvement").getD (PyV.vbool false)) = true)
    (hfail : curationRun (Data.dict dd) = PRes.exc e)
    (hname : next.name ≠ "CurationTriggerProcessor") :
    execute [Step.seq (curationTriggerProc curationRun), Step.seq next] (Data.dict dd)
        = (Except.error e, ["CurationTriggerProcessor"]) ∧
    (execute [Step.seq (curationTriggerProc curationRun), Step.seq next]
        (Data.dict dd)).2.count "CurationTriggerProcessor" = 1 ∧
    next.name ∉ (execute [Step.seq (curationTriggerProc curationRun), Step.seq next]
        (Data.dict dd)).2 := by
  have hrun : curationTriggerRun curationRun (Data.dict dd) = PRes.exc e := by
    simp only [curationTriggerRun]
    rw [if_pos hneeds, hfail]
  have hmain : execute [Step.seq (curationTriggerProc curationRun), Step.seq next]
      (Data.dict dd) = (Except.error e, ["CurationTriggerProcessor"]) := by
    simp only [execute, hrun, curationTriggerProc]
  refine ⟨hmain, ?_, ?_⟩
  · rw [hmain]
    simp
  · rw [hmain]
    simp [hname]

/-- Witness for the amended C9 at concrete inputs. -/
theorem curation_failure_aborts_synthesis_witness :
    execute [Step.seq (curationTriggerProc failingCuration), Step.seq synthRemainder]
        (Data.dict [("query_text", PyV.vstr "how to auth"),
                    ("needs_improvement", PyV.vbool true)])
        = (Except.error "CurationError", ["CurationTriggerProcessor"]) ∧
    (execute [Step.seq (curationTriggerProc failingCuration), Step.seq synthRemainder]
        (Data.dict [("query_text", PyV.vstr "how to auth"),
                    ("needs_improvement", PyV.vbool true)])).2.count "CurationTriggerProcessor" = 1 ∧
    synthRemainder.name ∉ (execute [Step.seq (curationTriggerProc failingCuration),
        Step.seq synthRemainder]
        (Data.dict [("query_text", PyV.vstr "how to auth"),
                    ("needs_improvement", PyV.vbool true)])).2 :=
  curation_failure_aborts_synthesis failingCuration _ synthRemainder "CurationError"
    (by decide) (by decide) (by decide)

/-- The outcome of running a Python function body: normal return or a
raised exception (identified by its type name). -/
inductive PyOutcome (α : Type) : Type
  | ok (a : α)
  | raised (err : String)
deriving DecidableEq

/-- Python call semantics for positional calls: calling a function whose
signature has `required` parameters without defaults with `given`
positional arguments raises `TypeError` at the call site, before the
callee's body runs; otherwise the callee's result is returned. -/
def pyCall {α : Type} (required given : Nat) (result : α) : PyOutcome α :=
  if given < required then PyOutcome.raised "TypeError" else PyOutcome.ok result

/-- `create_synthesis_pipeline(chroma_service, upstash_service,
llm_service, redis)` (synthesis.py lines 46-56): four parameters, none
with a default. -/
def createSynthesisPipelineRequiredParams : Nat := 4

/-- `synthesis_task` (workers.py line 84) calls
`create_synthesis_pipeline(chroma_service, upstash_service, llm_service)`
with three positional arguments. -/
def synthesisTaskCallArgCount : Nat := 3

/-- `synthesis_task(ctx, query_text)` (workers.py lines 74-100): after
instantiating the services, it calls `create_synthesis_pipeline` (with
the argument count above) *before* entering its `try` block; only the
`await synthesis_pipeline.execute(...)` inside the `try` is covered by
the `except Exception` handler, which logs and swallows.  The returned
trace lists the pipeline steps that got to run. -/
def synthesisTask (queryText : String) : PyOutcome Unit × List String :=
  match pyCall createSynthesisPipelineRequiredParams synthesisTaskCallArgCount queryText with
  | PyOutcome.raised e => (PyOutcome.raised e, [])
  | PyOutcome.ok _ => (PyOutcome.ok (), ["synthesis_pipeline.execute"])

/-- C10: every invocation of `synthesis_task` raises `TypeError` at the
`create_synthesis_pipeline` call (three arguments against four required
parameters), before any pipeline step executes, and since the call sits
before the task's `try` block the error escapes the task's own handler. -/
theorem synthesis_task_always_raises (queryText : String) :
    synthesisTask queryText = (PyOutcome.raised "TypeError", []) := by
  rfl

/-- An entry of the `entry_points` list handed to
`GraphTraversalProcessor.process`: `None` or a path string. -/
inductive EntryPoint : Type
  | epNone
  | epPath (s : String)
deriving DecidableEq

/-- Python truthiness of an entry point (`if not entry_point: continue`). -/
def epTruthy : EntryPoint → Bool
  | EntryPoint.epNone => false
  | EntryPoint.epPath s => !(s == "")

/-- The call `self._traverse(relative_path, visited)` made by `process`
(graph_traversal.py line 34): two positional arguments against the three
required parameters of `_traverse(self, file_path, visited, context)`
(line 39). -/
def traverseCallFromProcess : PyOutcome String := pyCall 3 2 ""

/-- `GraphTraversalProcessor.process` (graph_traversal.py lines 17-37),
abstracted to the value it stores in `data["traversed_knowledge"]`:
`entry_points = data.get("entry_points", [])`; a falsy list (absent or
empty) short-circuits to the empty string; otherwise the loop skips falsy
entries and, at the first truthy entry, performs the two-argument
`_traverse` call above. -/
def graphProcess (entryPoints : Option (List EntryPoint)) : PyOutcome String :=
  let eps := entryPoints.getD []
  if eps.isEmpty then PyOutcome.ok ""
  else
    match eps.find? epTruthy with
    | some _ =>
        (match traverseCallFromProcess with
         | PyOutcome.raised err => PyOutcome.raised err
         | PyOutcome.ok s => PyOutcome.ok s)
    | none => PyOutcome.ok ""

/-- Counterexample to C6: `entry_points = [None]` is present and
non-empty, yet `process` returns normally (the loop skips the falsy
entry and `"\n".join([])` is the empty string) — refuting the claim that
`process` returns normally *only* when `entry_points` is empty or
absent. -/
theorem graph_process_falsy_entry_returns_normally :
    graphProcess (some [EntryPoint.epNone]) = PyOutcome.ok "" ∧
    [EntryPoint.epNone] ≠ ([] : List EntryPoint) := by
  exact ⟨rfl, by decide⟩

/-- C6 (amended): `process` raises `TypeError` (via the two-argument
`self._traverse(relative_path, visited)` call against `_traverse`'s three
required parameters) exactly when `entry_points` contains at least one
truthy path; otherwise — absent, empty, or all entries falsy — it
returns normally with `data["traversed_knowledge"]` set to the empty
string. -/
theorem graph_process_arity_outcome (entryPoints : Option (List EntryPoint)) :
    graphProcess entryPoints =
      if (entryPoints.getD []).any epTruthy then PyOutcome.raised "TypeError"
      else PyOutcome.ok "" := by
  unfold graphProcess
  cases entryPoints with
  | none => rfl
  | some eps =>
      simp only [Option.getD]
      cases heps : eps with
      | nil => rfl
      | cons a rest =>
          simp only [List.isEmpty_cons, if_neg]
          cases hfind : (a :: rest).find? epTruthy with
          | none =>
              have hall := List.find?_eq_none.mp hfind
              have : (a :: rest).any epTruthy = false := by
                rw [List.any_eq_false]
                intro x hx
                simpa using hall x hx
              simp only [this]
              simp
          | some x =>
              have hx := List.find?_some hfind
              have hmem := List.mem_of_find?_eq_some hfind
              have : (a :: rest).any epTruthy = true := by
                rw [List.any_eq_true]
                exact ⟨x, hmem, hx⟩
              simp only [this]
              simp [traverseCallFromProcess, pyCall]

/-- The knowledge-graph directory, as a mapping from file path (relative
to `knowledge_graph_root`) to file content. -/
abbrev FS : Type := Dct String

/-- Capture the characters between `[[` and the first following `]]`,
as the non-greedy group `(.*?)` of `re.findall(r"\[\[(.*?)\]\]", ...)`
does; `.` does not match a newline (no `re.DOTALL`), so the capture
fails if a newline comes first.  Returns the captured text and the
remainder after the closing `]]`. -/
def grabTill : List Char → Option (String × List Char)
  | ']' :: ']' :: rest => some ("", rest)
  | c :: rest =>
      if c = '\n' then none
      else (grabTill rest).map (fun p => (String.mk (c :: p.1.data), p.2))
  | [] => none

/-- Left-to-right non-overlapping scan for `\[\[(.*?)\]\]` matches.
`fuel` only bounds the recursion depth; every recursive call strictly
shrinks the character list, so `cs.length + 1` fuel is always enough. -/
def findLinksAux : Nat → List Char → List String
  | 0, _ => []
  | _ + 1, [] => []
  | fuel + 1, '[' :: '[' :: rest =>
      match grabTill rest with
      | some (s, r) => s :: findLinksAux fuel r
      | none => findLinksAux fuel ('[' :: rest)
  | fuel + 1, _ :: rest => findLinksAux fuel rest

/-- `re.findall(r"\[\[(.*?)\]\]", content)` (graph_traversal.py line 63). -/
def findLinks (content : String) : List String :=
  findLinksAux (content.data.length + 1) content.data

/-- Split at the first occurrence of `---`, returning the text before it
and the remainder after it. -/
def splitDashes : List Char → Option (List Char × List Char)
  | '-' :: '-' :: '-' :: rest => some ([], rest)
  | c :: rest => (splitDashes rest).map (fun p => (c :: p.1, p.2))
  | [] => none

/-- The front-matter split of `_traverse` (graph_traversal.py lines
56-61): `_, front_matter_str, body = content.split("---", 2)` — with
fewer than two `---` separators the unpacking raises `ValueError` and the
handler falls back to `body = content`.  (The parsed front matter itself
is never used afterwards.) -/
def fmBody (content : String) : String :=
  match splitDashes content.data with
  | none => content
  | some p =>
      match splitDashes p.2 with
      | none => content
      | some q => String.mk q.2

/-- `GraphTraversalProcessor._traverse(file_path, visited, context)`
(graph_traversal.py lines 39-71), as the code actually stands: return
`""` at once for an already-visited path; add the path to `visited`
*before* anything else; a missing file appends one entry to the
`broken_links` side channel in the shared context and yields `""`;
otherwise strip the front matter, collect the `[[...]]` links from the
whole content, and — at the first link — perform the recursive call
`self._traverse(link_path, visited)` (line 69), which passes two
positional arguments to the three-parameter `_traverse` and therefore
raises `TypeError` before anything of the linked file is read.  With no
links, the result is `"\n".join([body]) = body`.  The outcome carries
(result text, visited, broken_links). -/
def traverseReal (fs : FS) (filePath : String) (visited : List String)
    (brokenLinks : List String) : PyOutcome (String × List String × List String) :=
  if visited.contains filePath then PyOutcome.ok ("", visited, brokenLinks)
  else
    let visited := filePath :: visited
    match dictGet fs filePath with
    | none => PyOutcome.ok ("", visited, brokenLinks ++ [filePath])
    | some content =>
        match findLinks content with
        | [] => PyOutcome.ok (fmBody content, visited, brokenLinks)
        | _ :: _ => PyOutcome.raised "TypeError"

/-- The two-file cycle `a.md ⇄ b.md` from the spec's cycle-termination
property. -/
def cyclicFS : FS :=
  [("a.md", "Content A [[b.md]]"), ("b.md", "Content B [[a.md]]")]

/-- C4 (code bug): the visited-set fast path does return `""` without
re-reading, but on the cyclic pair `a.md ⇄ b.md` the traversal raises
`TypeError` at its first recursive link call (`self._traverse(link_path,
visited)` omits `context`), so the cyclic graph does *not* traverse to
completion with each file's content emitted once. -/
theorem traverse_cycle_raises_type_error :
    traverseReal cyclicFS "a.md" ["a.md"] [] = PyOutcome.ok ("", ["a.md"], []) ∧
    traverseReal cyclicFS "a.md" [] [] = PyOutcome.raised "TypeError" := by
  exact ⟨rfl, rfl⟩

/-- A file whose only wikilink points at a missing file. -/
def brokenLinkFS : FS := [("main.md", "Main content [[missing.md]]")]

/-- C5 (code bug): entering `_traverse` directly on a missing path does
record exactly one broken-links entry and yield `""` (the lines 46-52
handler works) — but reaching a missing file through a wikilink, the
claim's scenario, never gets there: the recursive call raises `TypeError`
first, no broken-link entry is appended, and no sibling content is
returned. -/
theorem traverse_broken_link_raises_type_error :
    traverseReal brokenLinkFS "missing.md" [] []
        = PyOutcome.ok ("", ["missing.md"], ["missing.md"]) ∧
    traverseReal brokenLinkFS "main.md" [] [] = PyOutcome.raised "TypeError" := by
  exact ⟨rfl, rfl⟩

/-- `Path.stem` of the index file: the final path component without its
last extension (`index_file.stem`, used in the created header). -/
def pathStem (p : String) : String :=
  let nm := (p.splitOn "/").getLastD p
  let parts := nm.splitOn "."
  if parts.length ≤ 1 then nm else String.intercalate "." parts.dropLast

/-- The single link line `link_markdown` written per call of
`_update_index_node` (knowledge_graph_service.py line 81); `rel` stands
for the already-computed `os.path.relpath(link_to_add,
start=index_file.parent)` with separators normalised to `/`. -/
def linkMarkdown (rel : String) : String := "- [[" ++ rel ++ "]]\n"

/-- The header written when the index file is created
(knowledge_graph_service.py line 85). -/
def indexHeader (stem : String) : String :=
  "# Index: " ++ stem ++ "\n\n## Related Insights\n\n"

/-- `KnowledgeGraphService._update_index_node` (knowledge_graph_service.py
lines 71-86) over the file-system model: if the index file does not
exist, create it with the header followed by the one link line; else
open in append mode and write the one link line at the end.  Nothing is
ever deduplicated or rewritten. -/
def updateIndexNode (fs : FS) (indexFile : String) (rel : String) : FS :=
  match dictGet fs indexFile with
  | none => dictSet fs indexFile (indexHeader (pathStem indexFile) ++ linkMarkdown rel)
  | some content => dictSet fs indexFile (content ++ linkMarkdown rel)

/-- C7: index-node writing is append-or-create — the first call for a
non-existent index path creates the file as the header plus exactly one
wikilink line; a call on an existing file appends exactly one wikilink
line after the unaltered previous content; in particular a second call
on a freshly created file yields header, first line, second line, with
the first line unchanged, and the same link repeated is written again,
never deduplicated. -/
theorem index_node_append_or_create (fs : FS) (p r1 r2 : String) :
    (dictGet fs p = none →
        dictGet (updateIndexNode fs p r1) p
            = some (indexHeader (pathStem p) ++ linkMarkdown r1) ∧
        dictGet (updateIndexNode (updateIndexNode fs p r1) p r2) p
            = some (indexHeader (pathStem p) ++ linkMarkdown r1 ++ linkMarkdown r2)) ∧
    (∀ c, dictGet fs p = some c →
        dictGet (updateIndexNode fs p r1) p = some (c ++ linkMarkdown r1)) := by
  constructor
  · intro habsent
    have h1 : dictGet (updateIndexNode fs p r1) p
        = some (indexHeader (pathStem p) ++ linkMarkdown r1) := by
      unfold updateIndexNode
      rw [habsent]
      exact dictGet_dictSet_self fs p _
    refine ⟨h1, ?_⟩
    generalize hA : updateIndexNode fs p r1 = A at h1
    unfold updateIndexNode
    rw [h1]
    exact dictGet_dictSet_self A p _
  · intro c hc
    unfold updateIndexNode
    rw [hc]
    exact dictGet_dictSet_self fs p _

/-- Witness for C7: a fresh file system; the repository index file is
created on the first write and appended to (with the identical link
repeated) on the second. -/
theorem index_node_append_or_create_witness :
    (dictGet ([] : FS) "repositories/cortex.md" = none →
        dictGet (updateIndexNode [] "repositories/cortex.md" "../insights/i1.md")
            "repositories/cortex.md"
            = some (indexHeader (pathStem "repositories/cortex.md")
                ++ linkMarkdown "../insights/i1.md") ∧
        dictGet (updateIndexNode (updateIndexNode [] "repositories/cortex.md"
              "../insights/i1.md") "repositories/cortex.md" "../insights/i1.md")
            "repositories/cortex.md"
            = some (indexHeader (pathStem "repositories/cortex.md")
                ++ linkMarkdown "../insights/i1.md" ++ linkMarkdown "../insights/i1.md")) ∧
    (∀ c, dictGet ([] : FS) "repositories/cortex.md" = some c →
        dictGet (updateIndexNode [] "repositories/cortex.md" "../insights/i1.md")
            "repositories/cortex.md" = some (c ++ linkMarkdown "../insights/i1.md")) :=
  index_node_append_or_create [] "repositories/cortex.md" "../insights/i1.md"
    "../insights/i1.md"

/-- The discriminated source-event union carried by an `Insight`
(`isinstance` dispatch in `_generate_insight_filepath`). -/
inductive SourceEvent : Type
  | gitCommit (commitHash : String)
  | codeChange (filePath : String)
  | otherEvent
deriving DecidableEq

/-- The `Insight` fields `_generate_insight_filepath` reads.
`timestampCompact` is the pre-rendered `timestamp.strftime("%Y%m%dT%H%M%S")`
and `md5 file_path` below stands for
`hashlib.md5(file_path.encode()).hexdigest()`. -/
structure Insight : Type where
  insightId : String
  sourceEventType : String
  sourceEvent : SourceEvent
  timestampCompact : String

/-- `KnowledgeGraphService._generate_insight_filepath`
(knowledge_graph_service.py lines 25-42): slug = the event type with `_`
replaced by `.` then lowercased; a `GitCommitEvent` gives
`{slug}.{commit_hash[:12]}.md`; a `CodeChangeEvent` gives
`{slug}.{md5(file_path)[:12]}.{timestamp}.md`; anything else gives
`generic.{insight_id}.md`; finally `/` is replaced by `_`. -/
def generateInsightFilepath (md5hex : String → String) (i : Insight) : String :=
  let eventTypeSlug := (i.sourceEventType.replace "_" ".").toLower
  let filename :=
    match i.sourceEvent with
    | SourceEvent.gitCommit h => eventTypeSlug ++ "." ++ h.take 12 ++ ".md"
    | SourceEvent.codeChange fp =>
        eventTypeSlug ++ "." ++ (md5hex fp).take 12 ++ "." ++ i.timestampCompact ++ ".md"
    | SourceEvent.otherEvent => "generic." ++ i.insightId ++ ".md"
  filename.replace "/" "_"

/-- C8: insight filenames are idempotent for commit events — any two
insights whose source events are commit events with the same commit hash
and whose `source_event_type` agree get the identical filename, whatever
their ids and timestamps. -/
theorem insight_filename_idempotent (md5hex : String → String) (i1 i2 : Insight)
    (c : String)
    (h1 : i1.sourceEvent = SourceEvent.gitCommit c)
    (h2 : i2.sourceEvent = SourceEvent.gitCommit c)
    (hty : i1.sourceEventType = i2.sourceEventType) :
    generateInsightFilepath md5hex i1 = generateInsightFilepath md5hex i2 := by
  unfold generateInsightFilepath
  rw [h1, h2, hty]

/-- Witness for C8: two insights for the same commit hash, differing in
id and timestamp, get the same filename. -/
theorem insight_filename_idempotent_witness :
    generateInsightFilepath (fun _ => "")
        ⟨"id-1", "git_commit", SourceEvent.gitCommit "0123456789abcdef", "20250101T000000"⟩
      = generateInsightFilepath (fun _ => "")
        ⟨"id-2", "git_commit", SourceEvent.gitCommit "0123456789abcdef", "20260101T000000"⟩ :=
  insight_filename_idempotent (fun _ => "") _ _ "0123456789abcdef" rfl rfl rfl

end Cortex
